import Mathlib

/-!
Shallow embedding of the update-queue subsystem of the fiber reconciler
(`src/src/App.js`: `initializeUpdateQueue`, `cloneUpdateQueue`, `createUpdate`,
`enqueueUpdate`, `getStateFromUpdate`, `processUpdateQueue`).

Modelling decisions:
* JavaScript state objects are modelled as association lists of string keys to
  integer values; `null`/`undefined` are collapsed into one `nullish` value
  (the source treats them identically: `partialState === null || partialState
  === undefined`).
* The circular pending linked list (`shared.pending` points at the last node,
  `pending.next` at the first) is modelled as an optional Lean list holding the
  updates in insertion order; the `next` pointers of the linear base list are
  modelled by `List`.
* Update payload functions are pure Lean functions of `(prevState, nextProps)`;
  consequently the re-check of `queue.shared.pending` inside the processing
  loop (which only fires when a payload function enqueues during processing)
  can never fire and the loop is a fold over the merged list.
* The module-level mutable `hasForceUpdate` flag, the `workInProgress.flags`
  field and the `queue.effects` array are threaded explicitly through the loop
  state.
* Pointer identity tests of the source (`currentQueue.lastBaseUpdate !==
  lastBaseUpdate` in `processUpdateQueue`, `isInterleavedUpdate(fiber, lane)`
  in `enqueueUpdate`) are taken as boolean inputs, since object identity is
  not observable in a value-level embedding.
-/

namespace ReactModel

/-- A JavaScript value as far as the update queue inspects it: either
`null`/`undefined` (collapsed to `nullish`) or an object, modelled as an
association list from string keys to integer values. -/
inductive JSVal where
  | nullish : JSVal
  | obj : List (String × Int) → JSVal
deriving DecidableEq

/-- View a value as an object; `null`/`undefined` act as the empty object
(as the first argument of `Object.assign` semantics used below). -/
def toObj : JSVal → List (String × Int)
  | .nullish => []
  | .obj l => l

/-- Property lookup on an object association list (first binding wins). -/
def lookupKey (l : List (String × Int)) (k : String) : Option Int :=
  (l.find? (fun p => p.1 == k)).map (fun p => p.2)

/-- `Object.assign(\x7b\x7d, a, b)`: keys of `a` in their original order with
values overridden by `b` where present, followed by the keys of `b` that are
absent from `a`. -/
def assignObj (a b : List (String × Int)) : List (String × Int) :=
  a.map (fun p => (p.1, (lookupKey b p.1).getD p.2)) ++
    b.filter (fun q => (lookupKey a q.1).isNone)

/-- An update payload (`update.payload` is `any` in the source): a plain value
or an updater function receiving `(prevState, nextProps)`. -/
inductive Payload where
  | val : JSVal → Payload
  | fn : (JSVal → JSVal → JSVal) → Payload

/-- `export const UpdateState = 0`. -/
def UpdateState : Nat := 0
/-- `export const ReplaceState = 1`. -/
def ReplaceState : Nat := 1
/-- `export const ForceUpdate = 2`. -/
def ForceUpdate : Nat := 2
/-- `export const CaptureUpdate = 3`. -/
def CaptureUpdate : Nat := 3

/-- Modelled from the spec: `flags` is a "bitfield of pending side-effect
kinds"; the file `ReactFiberFlags` that fixes the bit positions is not among
the sources, so the three bits used by the update queue are given distinct
single-bit values here. `Callback` marks a pending post-commit callback. -/
def Callback : Nat := 32

/-- Modelled from the spec: error-boundary recovery bit cleared by a
`CaptureUpdate` (see `Callback` for why the value is chosen here). -/
def ShouldCapture : Nat := 4096

/-- Modelled from the spec: error-boundary recovery bit set by a
`CaptureUpdate` (see `Callback` for why the value is chosen here). -/
def DidCapture : Nat := 64

/-- Modelled from the spec: the lane algebra of `ReactFiberLane.old` (not
among the sources). `NoLanes` is the empty bitmask. -/
def NoLanes : Nat := 0

/-- Modelled from the spec: the absent lane, bitmask `0`. -/
def NoLane : Nat := 0

/-- Modelled from the spec: `mergeLanes(a, b)` is bitwise OR. -/
def mergeLanes (a b : Nat) : Nat := a ||| b

/-- Modelled from the spec: `isSubsetOfLanes(set, subset)` is
`(set & subset) === subset`. -/
def isSubsetOfLanes (s subset : Nat) : Bool := s &&& subset == subset

/-- 32-bit complement, used for `flags & ~ShouldCapture` (JavaScript bitwise
operators act on 32-bit integers). -/
def bnot32 (n : Nat) : Nat := 4294967295 ^^^ n

/-- One requested state transition (`Update<State>` in the source). The
`next` pointer is absorbed into the `List` representation; the callback is
identified by an opaque tag, since only its presence is inspected here. -/
structure Update where
  eventTime : Nat
  lane : Nat
  tag : Nat
  payload : Payload
  callback : Option Nat

/-- The per-fiber update queue (`UpdateQueue<State>` plus its
`SharedQueue<State>` flattened in: `pending`, `interleaved` and `lanes` are
the `shared` fields). -/
structure UpdateQueue where
  baseState : JSVal
  baseUpdates : List Update
  pending : Option (List Update)
  interleaved : Option (List Update)
  lanes : Nat
  effects : Option (List Update)

/-- The slice of a fiber node that the update queue reads and writes. -/
structure Fiber where
  memoizedState : JSVal
  flags : Nat
  lanes : Nat
  updateQueue : Option UpdateQueue

/-- `initializeUpdateQueue`: the fresh queue attached to a fiber, with
`baseState := fiber.memoizedState` and every list empty. -/
def initialQueue (fiber : Fiber) : UpdateQueue :=
  { baseState := fiber.memoizedState
    baseUpdates := []
    pending := none
    interleaved := none
    lanes := NoLanes
    effects := none }

/-- `initializeUpdateQueue(fiber)`: attach the fresh queue to the fiber. -/
def attachInitialQueue (fiber : Fiber) : Fiber :=
  { fiber with updateQueue := some (initialQueue fiber) }

/-- `createUpdate(eventTime, lane)`: tag `UpdateState`, payload `null`,
callback `null`. -/
def createUpdate (eventTime : Nat) (lane : Nat) : Update :=
  { eventTime := eventTime
    lane := lane
    tag := UpdateState
    payload := .val .nullish
    callback := none }

/-- `enqueueUpdate(fiber, update, lane)`. A `none` queue (unmounted fiber)
returns the fiber unchanged. Otherwise the update is appended at the tail of
the circular pending list, or of the interleaved list when
`isInterleavedUpdate(fiber, lane)` holds — that external predicate is passed
in as `interleavedPath`. -/
def enqueueUpdate (fiber : Fiber) (update : Update) (lane : Nat)
    (interleavedPath : Bool) : Fiber :=
  match fiber.updateQueue with
  | none =>
    -- Only occurs if the fiber has been unmounted.
    fiber
  | some updateQueue =>
    if interleavedPath then
      { fiber with updateQueue := some { updateQueue with
          interleaved := some ((updateQueue.interleaved.getD []) ++ [update]) } }
    else
      { fiber with updateQueue := some { updateQueue with
          pending := some ((updateQueue.pending.getD []) ++ [update]) } }

/-- Evaluate a payload against `(prevState, nextProps)`; a plain value is
returned as-is, an updater function is called. -/
def evalPayload : Payload → JSVal → JSVal → JSVal
  | .val v, _, _ => v
  | .fn f, prevState, nextProps => f prevState nextProps

/-- Result of `getStateFromUpdate`: the next state, the updated
`workInProgress.flags`, and whether the call set the module-level
`hasForceUpdate` flag. -/
structure StateFromUpdate where
  state : JSVal
  flags : Nat
  forceUpdate : Bool

/-- `getStateFromUpdate(workInProgress, queue, update, prevState, nextProps,
inst)`: dispatch on `update.tag`. `ReplaceState` returns the evaluated
payload wholesale; `CaptureUpdate` clears `ShouldCapture`, sets `DidCapture`
and falls through to `UpdateState`; `UpdateState` treats a nullish partial
state as a no-op and otherwise shallow-merges it; `ForceUpdate` sets the
force flag and keeps the previous state. -/
def getStateFromUpdate (flags : Nat) (update : Update) (prevState : JSVal)
    (nextProps : JSVal) : StateFromUpdate :=
  if update.tag = ReplaceState then
    { state := evalPayload update.payload prevState nextProps
      flags := flags
      forceUpdate := false }
  else if update.tag = CaptureUpdate ∨ update.tag = UpdateState then
    let flags1 :=
      if update.tag = CaptureUpdate then
        (flags &&& bnot32 ShouldCapture) ||| DidCapture
      else flags
    match evalPayload update.payload prevState nextProps with
    | .nullish =>
      -- Null and undefined are treated as no-ops.
      { state := prevState, flags := flags1, forceUpdate := false }
    | .obj partSt =>
      -- Merge the partial state and the previous state.
      { state := .obj (assignObj (toObj prevState) partSt)
        flags := flags1
        forceUpdate := false }
  else if update.tag = ForceUpdate then
    { state := prevState, flags := flags, forceUpdate := true }
  else
    { state := prevState, flags := flags, forceUpdate := false }

/-- The state component of applying one update, independent of the flag
bookkeeping: the denotation used to compare processing passes. -/
def applyU (nextProps : JSVal) (s : JSVal) (u : Update) : JSVal :=
  (getStateFromUpdate 0 u s nextProps).state

/-- The clone built for a skipped (insufficient-priority) update: every field
is copied, the lane included. -/
def cloneSkipped (u : Update) : Update :=
  { eventTime := u.eventTime
    lane := u.lane
    tag := u.tag
    payload := u.payload
    callback := u.callback }

/-- The clone built for an applied update that follows a skipped one: the
lane becomes `NoLane` so the replay is never skipped. -/
def cloneReplayed (u : Update) : Update :=
  { eventTime := u.eventTime
    lane := NoLane
    tag := u.tag
    payload := u.payload
    callback := u.callback }

/-- The mutable locals of the `processUpdateQueue` loop. -/
structure LoopState where
  newState : JSVal
  newLanes : Nat
  newBaseState : Option JSVal
  newBaseUpdates : List Update
  flags : Nat
  effects : Option (List Update)
  hasForceUpdate : Bool

/-- One iteration of the `processUpdateQueue` loop body over one update of
the merged list. -/
def stepUpdate (nextProps : JSVal) (renderLanes : Nat) (ls : LoopState)
    (update : Update) : LoopState :=
  if !(isSubsetOfLanes renderLanes update.lane) then
    -- Priority is insufficient. Skip this update. If this is the first
    -- skipped update, the previous update/state is the new base update/state.
    let clone := cloneSkipped update
    if ls.newBaseUpdates.isEmpty then
      { ls with
        newBaseUpdates := [clone]
        newBaseState := some ls.newState
        newLanes := mergeLanes ls.newLanes update.lane }
    else
      { ls with
        newBaseUpdates := ls.newBaseUpdates ++ [clone]
        newLanes := mergeLanes ls.newLanes update.lane }
  else
    -- This update does have sufficient priority.
    let ls1 :=
      if ls.newBaseUpdates.isEmpty then ls
      else { ls with newBaseUpdates := ls.newBaseUpdates ++ [cloneReplayed update] }
    let r := getStateFromUpdate ls1.flags update ls1.newState nextProps
    let ls2 := { ls1 with
      newState := r.state
      flags := r.flags
      hasForceUpdate := ls1.hasForceUpdate || r.forceUpdate }
    match update.callback with
    | none => ls2
    | some _ =>
      { ls2 with
        flags := ls2.flags ||| Callback
        effects := some ((ls2.effects.getD []) ++ [update]) }

/-- Initial loop state: `newState := queue.baseState`, no lanes, no carried
list, the fiber's flags and the queue's effects array. -/
def initLoop (queue : UpdateQueue) (flags : Nat) : LoopState :=
  { newState := queue.baseState
    newLanes := NoLanes
    newBaseState := none
    newBaseUpdates := []
    flags := flags
    effects := queue.effects
    hasForceUpdate := false }

/-- The merged list the loop walks: the carried-over base list with the
unravelled pending list appended. -/
def mergedUpdates (queue : UpdateQueue) : List Update :=
  queue.baseUpdates ++ queue.pending.getD []

/-- The transfer of the spliced pending list to the alternate (`current`)
fiber's queue: performed when there is a pending list, an alternate queue,
and the alternate's `lastBaseUpdate` is a different node than the spliced
tail (pointer identity, passed in as `lastBaseDiffers`). -/
def spliceToCurrent (currentQueue : Option UpdateQueue)
    (pending : Option (List Update)) (lastBaseDiffers : Bool) :
    Option UpdateQueue :=
  match pending, currentQueue with
  | some p, some cq =>
    if lastBaseDiffers then
      some { cq with baseUpdates := cq.baseUpdates ++ p }
    else some cq
  | _, _ => currentQueue

/-- Write-back after the loop: fix `newBaseState` (the computed state when
nothing was skipped), fold the interleaved lanes into `newLanes`, store the
carried list and effects on the queue, and the state, flags and lanes on the
fiber. -/
def finishLoop (wip : Fiber) (queue : UpdateQueue) (ls : LoopState) : Fiber :=
  let newBase :=
    if ls.newBaseUpdates.isEmpty then ls.newState
    else ls.newBaseState.getD ls.newState
  let lanesOut :=
    match queue.interleaved with
    | none => ls.newLanes
    | some il => il.foldl (fun acc u => mergeLanes acc u.lane) ls.newLanes
  { wip with
    memoizedState := ls.newState
    flags := ls.flags
    lanes := lanesOut
    updateQueue := some
      { baseState := newBase
        baseUpdates := ls.newBaseUpdates
        pending := none
        interleaved := queue.interleaved
        lanes := queue.lanes
        effects := ls.effects } }

/-- The result of `processUpdateQueue`: the updated work-in-progress fiber,
the (possibly extended) alternate queue, and the module-level
`hasForceUpdate` flag. -/
structure ProcessResult where
  wip : Fiber
  currentQueue : Option UpdateQueue
  hasForceUpdate : Bool

/-- `processUpdateQueue` with the queue already in hand: splice pending onto
the base list (also onto the alternate's queue when its last base node
differs), then, if the merged list is non-empty, fold the loop body over it
and write the results back. -/
def processWithQueue (wip : Fiber) (queue : UpdateQueue) (nextProps : JSVal)
    (renderLanes : Nat) (currentQueue : Option UpdateQueue)
    (lastBaseDiffers : Bool) : ProcessResult :=
  let currentQueue1 := spliceToCurrent currentQueue queue.pending lastBaseDiffers
  let merged := mergedUpdates queue
  if merged.isEmpty then
    { wip := { wip with updateQueue := some { queue with pending := none } }
      currentQueue := currentQueue1
      hasForceUpdate := false }
  else
    let ls := merged.foldl (stepUpdate nextProps renderLanes) (initLoop queue wip.flags)
    { wip := finishLoop wip queue ls
      currentQueue := currentQueue1
      hasForceUpdate := ls.hasForceUpdate }

/-- `processUpdateQueue(workInProgress, props, inst, renderLanes)`. The
queue is always non-null on a ClassComponent or HostRoot; the `none` branch
is unreachable on such fibers and returns the fiber unchanged. -/
def processUpdateQueue (wip : Fiber) (nextProps : JSVal) (renderLanes : Nat)
    (currentQueue : Option UpdateQueue) (lastBaseDiffers : Bool) :
    ProcessResult :=
  match wip.updateQueue with
  | none => { wip := wip, currentQueue := currentQueue, hasForceUpdate := false }
  | some queue =>
    processWithQueue wip queue nextProps renderLanes currentQueue lastBaseDiffers

/-- Enqueue a list of updates in order, each at its own lane, on the
non-interleaved path. -/
def enqueueAll (fiber : Fiber) (updates : List Update) : Fiber :=
  updates.foldl (fun f u => enqueueUpdate f u u.lane false) fiber

/-- Run `processUpdateQueue` once per mask in `masks`, threading the
work-in-progress fiber (no alternate). -/
def runPasses (nextProps : JSVal) (fiber : Fiber) (masks : List Nat) : Fiber :=
  masks.foldl (fun f r => (processUpdateQueue f nextProps r none false).wip) fiber

/-- What one pass leaves of an update that sits at or after the first skipped
update: an applied update is replayed later as its `NoLane` clone, a skipped
one is carried with its lane intact. -/
def markReplayed (renderLanes : Nat) (u : Update) : Update :=
  if isSubsetOfLanes renderLanes u.lane then cloneReplayed u else cloneSkipped u

/-- The carried-over base list one pass builds from a merged list: empty
until the first skipped update; from there, that update followed by every
later update (applied ones as `NoLane` clones). -/
def carriedOf (renderLanes : Nat) : List Update → List Update
  | [] => []
  | u :: us =>
    if isSubsetOfLanes renderLanes u.lane then carriedOf renderLanes us
    else cloneSkipped u :: us.map (markReplayed renderLanes)

/-- Invariant threaded through interrupted passes: the fiber still has a
queue, replaying the whole merged list from the queue's base state yields
`target`, every carried lane is covered by `coverMask`, and an empty merged
list means the memoized state already equals the base state. -/
def passInvariant (nextProps : JSVal) (coverMask : Nat) (target : JSVal)
    (f : Fiber) : Prop :=
  ∃ q, f.updateQueue = some q ∧
    (mergedUpdates q).foldl (applyU nextProps) q.baseState = target ∧
    (∀ u ∈ mergedUpdates q, isSubsetOfLanes coverMask u.lane = true) ∧
    (mergedUpdates q = [] → f.memoizedState = q.baseState)

end ReactModel

namespace ReactModel

/-! ### Helper lemmas about `getStateFromUpdate` and the lane algebra -/

theorem getStateFromUpdate_state_eq (fl : Nat) (u : Update) (s p : JSVal) :
    (getStateFromUpdate fl u s p).state = applyU p s u := by
  unfold applyU getStateFromUpdate
  by_cases h1 : u.tag = ReplaceState
  · simp [h1]
  · by_cases h2 : u.tag = CaptureUpdate ∨ u.tag = UpdateState
    · simp only [h1, h2, if_false, if_true]
      cases evalPayload u.payload s p <;> simp
    · simp only [ReplaceState, CaptureUpdate, UpdateState, ForceUpdate] at h1 h2 ⊢
      by_cases h3 : u.tag = 2 <;> simp [h1, h2, h3]

theorem cloneSkipped_eq (u : Update) : cloneSkipped u = u := rfl

theorem applyU_cloneReplayed (p s : JSVal) (u : Update) :
    applyU p s (cloneReplayed u) = applyU p s u := rfl

theorem applyU_markReplayed (renderLanes : Nat) (p s : JSVal) (u : Update) :
    applyU p s (markReplayed renderLanes u) = applyU p s u := by
  unfold markReplayed
  cases isSubsetOfLanes renderLanes u.lane <;> rfl

theorem foldl_applyU_map_markReplayed (p : JSVal) (renderLanes : Nat)
    (us : List Update) : ∀ s : JSVal,
    (us.map (markReplayed renderLanes)).foldl (applyU p) s =
      us.foldl (applyU p) s := by
  induction us with
  | nil => intro s; rfl
  | cons u us ih => intro s; simp [applyU_markReplayed, ih]

theorem isSubsetOfLanes_zero (m : Nat) : isSubsetOfLanes m 0 = true := by
  simp [isSubsetOfLanes]

theorem isSubsetOfLanes_merge_left (a b l : Nat)
    (h : isSubsetOfLanes a l = true) :
    isSubsetOfLanes (mergeLanes a b) l = true := by
  simp only [isSubsetOfLanes, mergeLanes, beq_iff_eq] at h ⊢
  apply Nat.eq_of_testBit_eq
  intro i
  have hi := congrArg (fun n => n.testBit i) h
  simp only [Nat.testBit_land, Nat.testBit_lor] at hi ⊢
  cases ha : a.testBit i <;> cases hb : b.testBit i <;> cases hl : l.testBit i <;>
    simp_all

theorem isSubsetOfLanes_merge_self (a l : Nat) :
    isSubsetOfLanes (mergeLanes a l) l = true := by
  simp only [isSubsetOfLanes, mergeLanes, beq_iff_eq]
  apply Nat.eq_of_testBit_eq
  intro i
  simp only [Nat.testBit_land, Nat.testBit_lor]
  cases a.testBit i <;> cases l.testBit i <;> simp

theorem isSubsetOfLanes_foldl_merge (il : List Update) (acc l : Nat)
    (h : isSubsetOfLanes acc l = true) :
    isSubsetOfLanes (il.foldl (fun a u => mergeLanes a u.lane) acc) l = true := by
  induction il generalizing acc with
  | nil => exact h
  | cons u us ih => exact ih _ (isSubsetOfLanes_merge_left _ _ _ h)

/-! ### Component lemmas about one iteration of the processing loop -/

theorem isEmpty_false_of_ne_nil {α : Type} (l : List α) (h : l ≠ []) :
    l.isEmpty = false := by
  cases l with
  | nil => exact absurd rfl h
  | cons a t => rfl

theorem stepUpdate_skip (p : JSVal) (renderLanes : Nat) (ls : LoopState)
    (u : Update) (h : isSubsetOfLanes renderLanes u.lane = false) :
    stepUpdate p renderLanes ls u =
      { ls with
        newBaseUpdates := ls.newBaseUpdates ++ [cloneSkipped u]
        newBaseState :=
          if ls.newBaseUpdates.isEmpty then some ls.newState else ls.newBaseState
        newLanes := mergeLanes ls.newLanes u.lane } := by
  unfold stepUpdate
  rw [h]
  cases hb : ls.newBaseUpdates <;> simp [hb]

theorem stepUpdate_apply_newState (p : JSVal) (renderLanes : Nat)
    (ls : LoopState) (u : Update)
    (h : isSubsetOfLanes renderLanes u.lane = true) :
    (stepUpdate p renderLanes ls u).newState = applyU p ls.newState u := by
  unfold stepUpdate
  rw [h]
  cases hb : ls.newBaseUpdates.isEmpty <;> cases hc : u.callback <;>
    simp [hb, hc, getStateFromUpdate_state_eq]

theorem stepUpdate_apply_newBaseState (p : JSVal) (renderLanes : Nat)
    (ls : LoopState) (u : Update)
    (h : isSubsetOfLanes renderLanes u.lane = true) :
    (stepUpdate p renderLanes ls u).newBaseState = ls.newBaseState := by
  unfold stepUpdate
  rw [h]
  cases hb : ls.newBaseUpdates.isEmpty <;> cases hc : u.callback <;>
    simp [hb, hc]

theorem stepUpdate_apply_newLanes (p : JSVal) (renderLanes : Nat)
    (ls : LoopState) (u : Update)
    (h : isSubsetOfLanes renderLanes u.lane = true) :
    (stepUpdate p renderLanes ls u).newLanes = ls.newLanes := by
  unfold stepUpdate
  rw [h]
  cases hb : ls.newBaseUpdates.isEmpty <;> cases hc : u.callback <;>
    simp [hb, hc]

theorem stepUpdate_apply_newBase (p : JSVal) (renderLanes : Nat)
    (ls : LoopState) (u : Update)
    (h : isSubsetOfLanes renderLanes u.lane = true) :
    (stepUpdate p renderLanes ls u).newBaseUpdates =
      if ls.newBaseUpdates.isEmpty then ls.newBaseUpdates
      else ls.newBaseUpdates ++ [cloneReplayed u] := by
  unfold stepUpdate
  rw [h]
  cases hb : ls.newBaseUpdates.isEmpty <;> cases hc : u.callback <;>
    simp [hb, hc]

theorem stepUpdate_newLanes_mono (p : JSVal) (renderLanes : Nat)
    (ls : LoopState) (u : Update) (l : Nat)
    (h : isSubsetOfLanes ls.newLanes l = true) :
    isSubsetOfLanes (stepUpdate p renderLanes ls u).newLanes l = true := by
  cases hsub : isSubsetOfLanes renderLanes u.lane
  · rw [stepUpdate_skip _ _ _ _ hsub]
    simpa using isSubsetOfLanes_merge_left _ _ _ h
  · rw [stepUpdate_apply_newLanes _ _ _ _ hsub]
    exact h

theorem stepUpdate_base_ne_nil (p : JSVal) (renderLanes : Nat)
    (ls : LoopState) (u : Update) (h : ls.newBaseUpdates ≠ []) :
    (stepUpdate p renderLanes ls u).newBaseUpdates ≠ [] := by
  cases hsub : isSubsetOfLanes renderLanes u.lane
  · rw [stepUpdate_skip _ _ _ _ hsub]
    simp
  · rw [stepUpdate_apply_newBase _ _ _ _ hsub,
      isEmpty_false_of_ne_nil _ h]
    simp

/-! ### The processing loop as a fold over the merged list -/

theorem foldl_step_newState (p : JSVal) (renderLanes : Nat) (us : List Update) :
    ∀ ls : LoopState, (us.foldl (stepUpdate p renderLanes) ls).newState =
      (us.filter (fun u => isSubsetOfLanes renderLanes u.lane)).foldl
        (applyU p) ls.newState := by
  induction us with
  | nil => intro ls; rfl
  | cons u us ih =>
    intro ls
    cases h : isSubsetOfLanes renderLanes u.lane
    · simp [List.filter_cons, h, ih, stepUpdate_skip _ _ _ _ h]
    · simp [List.filter_cons, h, ih, stepUpdate_apply_newState _ _ _ _ h]

theorem foldl_step_base_started (p : JSVal) (renderLanes : Nat)
    (us : List Update) : ∀ ls : LoopState, ls.newBaseUpdates ≠ [] →
      (us.foldl (stepUpdate p renderLanes) ls).newBaseUpdates =
        ls.newBaseUpdates ++ us.map (markReplayed renderLanes) := by
  induction us with
  | nil => intro ls h; simp
  | cons u us ih =>
    intro ls h
    have hne := stepUpdate_base_ne_nil p renderLanes ls u h
    cases hsub : isSubsetOfLanes renderLanes u.lane
    · rw [List.foldl_cons, ih _ hne, stepUpdate_skip _ _ _ _ hsub]
      simp [markReplayed, hsub]
    · rw [List.foldl_cons, ih _ hne, stepUpdate_apply_newBase _ _ _ _ hsub,
        isEmpty_false_of_ne_nil _ h]
      simp [markReplayed, hsub]

theorem foldl_step_baseState_started (p : JSVal) (renderLanes : Nat)
    (us : List Update) : ∀ ls : LoopState, ls.newBaseUpdates ≠ [] →
      (us.foldl (stepUpdate p renderLanes) ls).newBaseState =
        ls.newBaseState := by
  induction us with
  | nil => intro ls h; rfl
  | cons u us ih =>
    intro ls h
    have hne := stepUpdate_base_ne_nil p renderLanes ls u h
    rw [List.foldl_cons, ih _ hne]
    cases hsub : isSubsetOfLanes renderLanes u.lane
    · simp [stepUpdate_skip _ _ _ _ hsub, isEmpty_false_of_ne_nil _ h]
    · exact stepUpdate_apply_newBaseState _ _ _ _ hsub

theorem foldl_step_newLanes_mono (p : JSVal) (renderLanes : Nat)
    (us : List Update) : ∀ (ls : LoopState) (l : Nat),
      isSubsetOfLanes ls.newLanes l = true →
      isSubsetOfLanes ((us.foldl (stepUpdate p renderLanes) ls)).newLanes l
        = true := by
  induction us with
  | nil => intro ls l h; exact h
  | cons u us ih =>
    intro ls l h
    exact ih _ _ (stepUpdate_newLanes_mono _ _ _ _ _ h)

theorem foldl_step_newLanes_skipped (p : JSVal) (renderLanes : Nat)
    (us : List Update) : ∀ (ls : LoopState) (u : Update), u ∈ us →
      isSubsetOfLanes renderLanes u.lane = false →
      isSubsetOfLanes ((us.foldl (stepUpdate p renderLanes) ls)).newLanes u.lane
        = true := by
  induction us with
  | nil => intro ls u h hk; simp at h
  | cons v us ih =>
    intro ls u hmem hskip
    rcases List.mem_cons.mp hmem with heq | hmem'
    · subst heq
      rw [List.foldl_cons]
      apply foldl_step_newLanes_mono
      rw [stepUpdate_skip _ _ _ _ hskip]
      simpa using isSubsetOfLanes_merge_self ls.newLanes u.lane
    · exact ih _ _ hmem' hskip

theorem foldl_step_base_unstarted (p : JSVal) (renderLanes : Nat)
    (us : List Update) : ∀ ls : LoopState, ls.newBaseUpdates = [] →
      (us.foldl (stepUpdate p renderLanes) ls).newBaseUpdates =
        carriedOf renderLanes us := by
  induction us with
  | nil => intro ls h; simpa [carriedOf] using h
  | cons u us ih =>
    intro ls h
    cases hsub : isSubsetOfLanes renderLanes u.lane
    · rw [List.foldl_cons]
      have hstep : (stepUpdate p renderLanes ls u).newBaseUpdates =
          [cloneSkipped u] := by
        simp [stepUpdate_skip _ _ _ _ hsub, h]
      rw [foldl_step_base_started p renderLanes us _ (by rw [hstep]; simp),
        hstep]
      simp [carriedOf, hsub]
    · have hstep : (stepUpdate p renderLanes ls u).newBaseUpdates = [] := by
        simp [stepUpdate_apply_newBase _ _ _ _ hsub, h]
      rw [List.foldl_cons, ih _ hstep]
      simp [carriedOf, hsub]

theorem foldl_step_baseState_unstarted (p : JSVal) (renderLanes : Nat)
    (us : List Update) : ∀ ls : LoopState, ls.newBaseUpdates = [] →
      (us.foldl (stepUpdate p renderLanes) ls).newBaseState =
        if (us.dropWhile (fun u => isSubsetOfLanes renderLanes u.lane)).isEmpty
        then ls.newBaseState
        else some ((us.takeWhile
          (fun u => isSubsetOfLanes renderLanes u.lane)).foldl
            (applyU p) ls.newState) := by
  induction us with
  | nil => intro ls h; simp
  | cons u us ih =>
    intro ls h
    cases hsub : isSubsetOfLanes renderLanes u.lane
    · rw [List.foldl_cons]
      have hstate : (stepUpdate p renderLanes ls u).newBaseState =
          some ls.newState := by
        simp [stepUpdate_skip _ _ _ _ hsub, h]
      have hbase : (stepUpdate p renderLanes ls u).newBaseUpdates ≠ [] := by
        simp [stepUpdate_skip _ _ _ _ hsub, h]
      rw [foldl_step_baseState_started p renderLanes us _ hbase, hstate]
      simp [List.dropWhile_cons, List.takeWhile_cons, hsub]
    · have hstep : (stepUpdate p renderLanes ls u).newBaseUpdates = [] := by
        simp [stepUpdate_apply_newBase _ _ _ _ hsub, h]
      rw [List.foldl_cons, ih _ hstep]
      simp [List.dropWhile_cons, List.takeWhile_cons, hsub,
        stepUpdate_apply_newBaseState _ _ _ _ hsub,
        stepUpdate_apply_newState _ _ _ _ hsub]

/-! ### Properties of the carried-over list -/

theorem markReplayed_lane (renderLanes : Nat) (u : Update) :
    (markReplayed renderLanes u).lane =
      if isSubsetOfLanes renderLanes u.lane then NoLane else u.lane := by
  unfold markReplayed
  cases isSubsetOfLanes renderLanes u.lane <;> rfl

theorem carriedOf_eq_nil (renderLanes : Nat) (us : List Update)
    (h : ∀ u ∈ us, isSubsetOfLanes renderLanes u.lane = true) :
    carriedOf renderLanes us = [] := by
  induction us with
  | nil => rfl
  | cons u us ih =>
    have hu := h u (by simp)
    simp [carriedOf, hu, ih (fun v hv => h v (by simp [hv]))]

theorem carriedOf_dropWhile (renderLanes : Nat) (us : List Update) :
    carriedOf renderLanes us =
      match us.dropWhile (fun u => isSubsetOfLanes renderLanes u.lane) with
      | [] => []
      | k :: bs => cloneSkipped k :: bs.map (markReplayed renderLanes) := by
  induction us with
  | nil => rfl
  | cons u us ih =>
    cases hsub : isSubsetOfLanes renderLanes u.lane <;>
      simp [carriedOf, List.dropWhile_cons, hsub, ih]

theorem carriedOf_lane_covered (renderLanes coverMask : Nat) (us : List Update)
    (h : ∀ u ∈ us, isSubsetOfLanes coverMask u.lane = true) :
    ∀ u' ∈ carriedOf renderLanes us,
      isSubsetOfLanes coverMask u'.lane = true := by
  induction us with
  | nil => intro u' h'; simp [carriedOf] at h'
  | cons u us ih =>
    intro u' h'
    cases hsub : isSubsetOfLanes renderLanes u.lane
    · simp only [carriedOf, hsub, Bool.false_eq_true, if_false,
        List.mem_cons] at h'
      rcases h' with rfl | h'
      · exact h u (by simp)
      · obtain ⟨v, hv, rfl⟩ := List.mem_map.mp h'
        rw [markReplayed_lane]
        cases hsv : isSubsetOfLanes renderLanes v.lane
        · simpa [hsv] using h v (by simp [hv])
        · simpa [hsv, NoLane] using isSubsetOfLanes_zero coverMask
    · simp only [carriedOf, hsub, if_true] at h'
      exact ih (fun v hv => h v (by simp [hv])) u' h'

theorem foldl_applyU_carried (p : JSVal) (renderLanes : Nat)
    (us : List Update) (s : JSVal) :
    (carriedOf renderLanes us).foldl (applyU p)
      ((us.takeWhile (fun u => isSubsetOfLanes renderLanes u.lane)).foldl
        (applyU p) s) = us.foldl (applyU p) s := by
  rw [carriedOf_dropWhile]
  cases hd : us.dropWhile (fun u => isSubsetOfLanes renderLanes u.lane) with
  | nil =>
    have htk : us.takeWhile (fun u => isSubsetOfLanes renderLanes u.lane)
        = us := by
      have hs := List.takeWhile_append_dropWhile
        (p := fun u => isSubsetOfLanes renderLanes u.lane) (l := us)
      rw [hd, List.append_nil] at hs
      exact hs
    simp [htk]
  | cons k bs =>
    have hsplit := List.takeWhile_append_dropWhile
      (p := fun u => isSubsetOfLanes renderLanes u.lane) (l := us)
    rw [hd] at hsplit
    conv_rhs => rw [← hsplit]
    rw [List.foldl_append]
    simp [cloneSkipped_eq, foldl_applyU_map_markReplayed]

/-! ### `processUpdateQueue` at the fiber level -/

theorem processUpdateQueue_dispatch (wip : Fiber) (q : UpdateQueue)
    (p : JSVal) (renderLanes : Nat) (cq : Option UpdateQueue) (d : Bool)
    (hq : wip.updateQueue = some q) :
    processUpdateQueue wip p renderLanes cq d =
      processWithQueue wip q p renderLanes cq d := by
  unfold processUpdateQueue
  rw [hq]

theorem processWithQueue_empty (wip : Fiber) (q : UpdateQueue) (p : JSVal)
    (renderLanes : Nat) (cq : Option UpdateQueue) (d : Bool)
    (hmt : mergedUpdates q = []) :
    processWithQueue wip q p renderLanes cq d =
      { wip := { wip with updateQueue := some { q with pending := none } }
        currentQueue := spliceToCurrent cq q.pending d
        hasForceUpdate := false } := by
  unfold processWithQueue
  simp [hmt]

theorem processWithQueue_run (wip : Fiber) (q : UpdateQueue) (p : JSVal)
    (renderLanes : Nat) (cq : Option UpdateQueue) (d : Bool)
    (hne : mergedUpdates q ≠ []) :
    processWithQueue wip q p renderLanes cq d =
      { wip := finishLoop wip q ((mergedUpdates q).foldl
          (stepUpdate p renderLanes) (initLoop q wip.flags))
        currentQueue := spliceToCurrent cq q.pending d
        hasForceUpdate := ((mergedUpdates q).foldl
          (stepUpdate p renderLanes) (initLoop q wip.flags)).hasForceUpdate } := by
  unfold processWithQueue
  simp [isEmpty_false_of_ne_nil _ hne]

theorem process_memoizedState (wip : Fiber) (q : UpdateQueue) (p : JSVal)
    (renderLanes : Nat) (cq : Option UpdateQueue) (d : Bool)
    (hq : wip.updateQueue = some q) (hne : mergedUpdates q ≠ []) :
    (processUpdateQueue wip p renderLanes cq d).wip.memoizedState =
      ((mergedUpdates q).filter
        (fun u => isSubsetOfLanes renderLanes u.lane)).foldl
          (applyU p) q.baseState := by
  rw [processUpdateQueue_dispatch _ _ _ _ _ _ hq,
    processWithQueue_run _ _ _ _ _ _ hne]
  have hst : ((mergedUpdates q).foldl (stepUpdate p renderLanes)
        (initLoop q wip.flags)).newState =
      ((mergedUpdates q).filter
        (fun u => isSubsetOfLanes renderLanes u.lane)).foldl
          (applyU p) q.baseState :=
    foldl_step_newState p renderLanes (mergedUpdates q) (initLoop q wip.flags)
  unfold finishLoop
  simpa using hst

theorem process_baseUpdates (wip : Fiber) (q : UpdateQueue) (p : JSVal)
    (renderLanes : Nat) (cq : Option UpdateQueue) (d : Bool)
    (hq : wip.updateQueue = some q) (hne : mergedUpdates q ≠ []) :
    Option.map UpdateQueue.baseUpdates
        ((processUpdateQueue wip p renderLanes cq d).wip.updateQueue) =
      some (carriedOf renderLanes (mergedUpdates q)) := by
  rw [processUpdateQueue_dispatch _ _ _ _ _ _ hq,
    processWithQueue_run _ _ _ _ _ _ hne]
  have hbase : ((mergedUpdates q).foldl (stepUpdate p renderLanes)
        (initLoop q wip.flags)).newBaseUpdates =
      carriedOf renderLanes (mergedUpdates q) :=
    foldl_step_base_unstarted p renderLanes (mergedUpdates q)
      (initLoop q wip.flags) rfl
  unfold finishLoop
  simpa using hbase

theorem carriedOf_isEmpty_eq (renderLanes : Nat) (us : List Update) :
    (carriedOf renderLanes us).isEmpty =
      (us.dropWhile (fun u => isSubsetOfLanes renderLanes u.lane)).isEmpty := by
  rw [carriedOf_dropWhile]
  cases us.dropWhile (fun u => isSubsetOfLanes renderLanes u.lane) <;> rfl

theorem process_baseState (wip : Fiber) (q : UpdateQueue) (p : JSVal)
    (renderLanes : Nat) (cq : Option UpdateQueue) (d : Bool)
    (hq : wip.updateQueue = some q) (hne : mergedUpdates q ≠ []) :
    Option.map UpdateQueue.baseState
        ((processUpdateQueue wip p renderLanes cq d).wip.updateQueue) =
      some (if ((mergedUpdates q).dropWhile
            (fun u => isSubsetOfLanes renderLanes u.lane)).isEmpty
        then ((mergedUpdates q).filter
          (fun u => isSubsetOfLanes renderLanes u.lane)).foldl
            (applyU p) q.baseState
        else ((mergedUpdates q).takeWhile
          (fun u => isSubsetOfLanes renderLanes u.lane)).foldl
            (applyU p) q.baseState) := by
  rw [processUpdateQueue_dispatch _ _ _ _ _ _ hq,
    processWithQueue_run _ _ _ _ _ _ hne]
  have hbase : ((mergedUpdates q).foldl (stepUpdate p renderLanes)
        (initLoop q wip.flags)).newBaseUpdates =
      carriedOf renderLanes (mergedUpdates q) :=
    foldl_step_base_unstarted p renderLanes (mergedUpdates q)
      (initLoop q wip.flags) rfl
  have hst : ((mergedUpdates q).foldl (stepUpdate p renderLanes)
        (initLoop q wip.flags)).newState =
      ((mergedUpdates q).filter
        (fun u => isSubsetOfLanes renderLanes u.lane)).foldl
          (applyU p) q.baseState :=
    foldl_step_newState p renderLanes (mergedUpdates q) (initLoop q wip.flags)
  have hbst : ((mergedUpdates q).foldl (stepUpdate p renderLanes)
        (initLoop q wip.flags)).newBaseState =
      (if ((mergedUpdates q).dropWhile
            (fun u => isSubsetOfLanes renderLanes u.lane)).isEmpty
        then none
        else some (((mergedUpdates q).takeWhile
          (fun u => isSubsetOfLanes renderLanes u.lane)).foldl
            (applyU p) q.baseState)) :=
    foldl_step_baseState_unstarted p renderLanes (mergedUpdates q)
      (initLoop q wip.flags) rfl
  unfold finishLoop
  cases hie : ((mergedUpdates q).dropWhile
      (fun u => isSubsetOfLanes renderLanes u.lane)).isEmpty <;>
    simp [hbase, hst, hbst, carriedOf_isEmpty_eq, hie]

theorem process_queue_rest (wip : Fiber) (q : UpdateQueue) (p : JSVal)
    (renderLanes : Nat) (cq : Option UpdateQueue) (d : Bool)
    (hq : wip.updateQueue = some q) (hne : mergedUpdates q ≠ []) :
    Option.map UpdateQueue.pending
        ((processUpdateQueue wip p renderLanes cq d).wip.updateQueue)
      = some none ∧
    Option.map UpdateQueue.interleaved
        ((processUpdateQueue wip p renderLanes cq d).wip.updateQueue)
      = some q.interleaved ∧
    Option.map UpdateQueue.lanes
        ((processUpdateQueue wip p renderLanes cq d).wip.updateQueue)
      = some q.lanes := by
  rw [processUpdateQueue_dispatch _ _ _ _ _ _ hq,
    processWithQueue_run _ _ _ _ _ _ hne]
  unfold finishLoop
  simp

theorem process_lanes_skipped (wip : Fiber) (q : UpdateQueue) (p : JSVal)
    (renderLanes : Nat) (cq : Option UpdateQueue) (d : Bool) (u : Update)
    (hq : wip.updateQueue = some q) (hmem : u ∈ mergedUpdates q)
    (hskip : isSubsetOfLanes renderLanes u.lane = false) :
    isSubsetOfLanes
      ((processUpdateQueue wip p renderLanes cq d).wip.lanes) u.lane
      = true := by
  have hne : mergedUpdates q ≠ [] := by
    intro h
    rw [h] at hmem
    simp at hmem
  rw [processUpdateQueue_dispatch _ _ _ _ _ _ hq,
    processWithQueue_run _ _ _ _ _ _ hne]
  have hl := foldl_step_newLanes_skipped p renderLanes (mergedUpdates q)
    (initLoop q wip.flags) u hmem hskip
  unfold finishLoop
  cases hil : q.interleaved
  · simpa [hil] using hl
  · simpa [hil] using isSubsetOfLanes_foldl_merge _ _ _ hl

/-! ### Enqueueing and the cross-pass invariant -/

theorem eq_nil_of_isEmpty {α : Type} (l : List α) (h : l.isEmpty = true) :
    l = [] := by
  cases l with
  | nil => rfl
  | cons a t => simp at h

theorem filter_eq_self_of_all {α : Type} (q : α → Bool) (l : List α)
    (h : ∀ a ∈ l, q a = true) : l.filter q = l := by
  induction l with
  | nil => rfl
  | cons a t ih =>
    simp [List.filter_cons, h a (by simp),
      ih (fun b hb => h b (by simp [hb]))]

theorem all_of_dropWhile_eq_nil {α : Type} (q : α → Bool) (l : List α)
    (h : l.dropWhile q = []) : ∀ a ∈ l, q a = true := by
  induction l with
  | nil => intro a ha; simp at ha
  | cons a t ih =>
    intro b hb
    rw [List.dropWhile_cons] at h
    by_cases hqa : q a = true
    · rw [if_pos hqa] at h
      rcases List.mem_cons.mp hb with rfl | hb'
      · exact hqa
      · exact ih h b hb'
    · simp [hqa] at h

theorem enqueueUpdate_pending (fiber : Fiber) (q : UpdateQueue) (u : Update)
    (lane : Nat) (hq : fiber.updateQueue = some q) :
    enqueueUpdate fiber u lane false =
      { fiber with updateQueue := some { q with
          pending := some (q.pending.getD [] ++ [u]) } } := by
  unfold enqueueUpdate
  rw [hq]
  rfl

theorem enqueueUpdate_interleaved (fiber : Fiber) (q : UpdateQueue)
    (u : Update) (lane : Nat) (hq : fiber.updateQueue = some q) :
    enqueueUpdate fiber u lane true =
      { fiber with updateQueue := some { q with
          interleaved := some (q.interleaved.getD [] ++ [u]) } } := by
  unfold enqueueUpdate
  rw [hq]
  rfl

theorem enqueueAll_queue (us : List Update) : ∀ (f : Fiber) (q : UpdateQueue),
    f.updateQueue = some q →
    ∃ pOpt : Option (List Update),
      enqueueAll f us =
        { f with updateQueue := some { q with pending := pOpt } } ∧
      pOpt.getD [] = q.pending.getD [] ++ us := by
  induction us with
  | nil =>
    intro f q hq
    refine ⟨q.pending, ?_, by simp⟩
    show f = _
    have h1 : ({ q with pending := q.pending } : UpdateQueue) = q := rfl
    rw [h1, ← hq]
  | cons u us ih =>
    intro f q hq
    have hstep := enqueueUpdate_pending f q u u.lane hq
    have hq1 : (enqueueUpdate f u u.lane false).updateQueue =
        some { q with pending := some (q.pending.getD [] ++ [u]) } := by
      rw [hstep]
    obtain ⟨pOpt, heq, hval⟩ := ih (enqueueUpdate f u u.lane false) _ hq1
    refine ⟨pOpt, ?_, ?_⟩
    · rw [show enqueueAll f (u :: us) =
          enqueueAll (enqueueUpdate f u u.lane false) us from rfl, heq, hstep]
    · rw [hval]
      simp

theorem passInvariant_process (props : JSVal) (coverMask : Nat)
    (target : JSVal) (f : Fiber) (renderLanes : Nat)
    (h : passInvariant props coverMask target f) :
    passInvariant props coverMask target
      ((processUpdateQueue f props renderLanes none false).wip) := by
  obtain ⟨q, hq, hrep, hcov, hmt⟩ := h
  by_cases hne : mergedUpdates q = []
  · rw [processUpdateQueue_dispatch _ _ _ _ _ _ hq,
      processWithQueue_empty _ _ _ _ _ _ hne]
    have hb : q.baseUpdates = [] := by
      have := hne
      unfold mergedUpdates at this
      exact (List.append_eq_nil.mp this).1
    refine ⟨{ q with pending := none }, rfl, ?_, ?_, ?_⟩
    · simp only [mergedUpdates, hb]
      rw [hne] at hrep
      simpa using hrep
    · intro u hu
      simp [mergedUpdates, hb] at hu
    · intro hmt'
      simpa using hmt hne
  · have hbase := process_baseUpdates f q props renderLanes none false hq hne
    have hbst := process_baseState f q props renderLanes none false hq hne
    have hrest := process_queue_rest f q props renderLanes none false hq hne
    have hmemo := process_memoizedState f q props renderLanes none false hq hne
    cases hq' : (processUpdateQueue f props renderLanes none false).wip.updateQueue with
    | none =>
      rw [hq'] at hbase
      simp at hbase
    | some q' =>
      rw [hq'] at hbase hbst hrest
      obtain ⟨hpend, hil, hlan⟩ := hrest
      have hbase' : q'.baseUpdates = carriedOf renderLanes (mergedUpdates q) :=
        Option.some.inj hbase
      have hbst' := Option.some.inj hbst
      have hpend' : q'.pending = none := Option.some.inj hpend
      have hmerged' : mergedUpdates q' =
          carriedOf renderLanes (mergedUpdates q) := by
        simp [mergedUpdates, hbase', hpend']
      refine ⟨q', hq', ?_, ?_, ?_⟩
      · -- replaying the carried list reproduces the target
        rw [hmerged', hbst']
        cases hie : ((mergedUpdates q).dropWhile
            (fun u => isSubsetOfLanes renderLanes u.lane)).isEmpty
        · -- a skip occurred: base state is the state as of the first skip
          simp only [hie, Bool.false_eq_true, if_false]
          rw [foldl_applyU_carried]
          exact hrep
        · -- no skip: the carried list is empty and base state is final
          have hall := all_of_dropWhile_eq_nil _ _
            (eq_nil_of_isEmpty _ hie)
          rw [carriedOf_eq_nil renderLanes _ hall]
          simp only [hie, if_true, List.foldl_nil]
          rw [filter_eq_self_of_all _ _ hall]
          exact hrep
      · rw [hmerged']
        exact carriedOf_lane_covered renderLanes coverMask _ hcov
      · intro hmt'
        rw [hmerged'] at hmt'
        have hie : ((mergedUpdates q).dropWhile
            (fun u => isSubsetOfLanes renderLanes u.lane)).isEmpty = true := by
          rw [← carriedOf_isEmpty_eq, hmt']
          rfl
        rw [hmemo, hbst']
        simp [hie]

theorem passInvariant_final (props : JSVal) (coverMask : Nat)
    (target : JSVal) (f : Fiber)
    (h : passInvariant props coverMask target f) :
    (processUpdateQueue f props coverMask none false).wip.memoizedState
      = target := by
  obtain ⟨q, hq, hrep, hcov, hmt⟩ := h
  by_cases hne : mergedUpdates q = []
  · rw [processUpdateQueue_dispatch _ _ _ _ _ _ hq,
      processWithQueue_empty _ _ _ _ _ _ hne]
    rw [hne] at hrep
    simp only [List.foldl_nil] at hrep
    simpa using (hmt hne).trans hrep
  · rw [process_memoizedState f q props coverMask none false hq hne,
      filter_eq_self_of_all _ _ hcov]
    exact hrep

theorem passInvariant_runPasses (props : JSVal) (coverMask : Nat)
    (target : JSVal) (masks : List Nat) :
    ∀ f, passInvariant props coverMask target f →
      passInvariant props coverMask target (runPasses props f masks) := by
  induction masks with
  | nil => intro f h; exact h
  | cons r rs ih =>
    intro f h
    exact ih _ (passInvariant_process _ _ _ _ _ h)

/-- C1: for every fixed sequence of updates enqueued on a fiber's update
queue, the final memoized state after all lanes have been processed is the
same whether the queue is processed in a single `processUpdateQueue` call
whose render lanes cover every update's lane, or in several calls at
arbitrary lane subsets (skipped updates carried over between calls)
finished by a call whose render lanes cover every remaining lane: the
multi-pass computation equals the single-pass computation. -/
theorem c1_multipass_determinism (s0 props : JSVal) (fl ln : Nat)
    (us : List Update) (masks : List Nat) (rFinal rFull : Nat)
    (hFinal : ∀ u ∈ us, isSubsetOfLanes rFinal u.lane = true)
    (hFull : ∀ u ∈ us, isSubsetOfLanes rFull u.lane = true) :
    (runPasses props
        (enqueueAll (attachInitialQueue
          { memoizedState := s0, flags := fl, lanes := ln, updateQueue := none })
          us)
        (masks ++ [rFinal])).memoizedState =
      (runPasses props
        (enqueueAll (attachInitialQueue
          { memoizedState := s0, flags := fl, lanes := ln, updateQueue := none })
          us)
        [rFull]).memoizedState := by
  set base : Fiber :=
    { memoizedState := s0, flags := fl, lanes := ln, updateQueue := none }
    with hbase
  obtain ⟨pOpt, henq, hval⟩ :=
    enqueueAll_queue us (attachInitialQueue base) (initialQueue base) rfl
  simp only [initialQueue] at hval
  have hq0 : (enqueueAll (attachInitialQueue base) us).updateQueue =
      some { initialQueue base with pending := pOpt } := by
    rw [henq]
  have hmerged0 : mergedUpdates { initialQueue base with pending := pOpt }
      = us := by
    simp only [mergedUpdates, initialQueue]
    simpa using hval
  have hinv : ∀ M : Nat, (∀ u ∈ us, isSubsetOfLanes M u.lane = true) →
      passInvariant props M (us.foldl (applyU props) s0)
        (enqueueAll (attachInitialQueue base) us) := by
    intro M hM
    refine ⟨_, hq0, ?_, ?_, ?_⟩
    · rw [hmerged0]
      rfl
    · rw [hmerged0]
      exact hM
    · rw [hmerged0]
      intro h
      rw [henq]
      rfl
  have hL : runPasses props (enqueueAll (attachInitialQueue base) us)
        (masks ++ [rFinal]) =
      (processUpdateQueue
        (runPasses props (enqueueAll (attachInitialQueue base) us) masks)
        props rFinal none false).wip := by
    unfold runPasses
    rw [List.foldl_append]
    rfl
  rw [hL, passInvariant_final props rFinal _ _
    (passInvariant_runPasses props rFinal _ masks _ (hinv rFinal hFinal))]
  have hR : runPasses props (enqueueAll (attachInitialQueue base) us)
        [rFull] =
      (processUpdateQueue (enqueueAll (attachInitialQueue base) us)
        props rFull none false).wip := rfl
  rw [hR, passInvariant_final props rFull _ _ (hinv rFull hFull)]

/-- C1 witness: one interrupted pass at mask 1 followed by a covering pass
at mask 3 computes the same state as a single covering pass at mask 3. -/
theorem c1_multipass_determinism_witness :
    (runPasses .nullish
        (enqueueAll (attachInitialQueue
          { memoizedState := .nullish, flags := 0, lanes := 0,
            updateQueue := none })
          [createUpdate 0 1, createUpdate 0 2])
        ([1] ++ [3])).memoizedState =
      (runPasses .nullish
        (enqueueAll (attachInitialQueue
          { memoizedState := .nullish, flags := 0, lanes := 0,
            updateQueue := none })
          [createUpdate 0 1, createUpdate 0 2])
        [3]).memoizedState :=
  c1_multipass_determinism .nullish .nullish 0 0
    [createUpdate 0 1, createUpdate 0 2] [1] 3 3
    (by
      intro u hu
      rcases List.mem_cons.mp hu with rfl | hu
      · rfl
      · rcases List.mem_cons.mp hu with rfl | hu
        · rfl
        · simp at hu)
    (by
      intro u hu
      rcases List.mem_cons.mp hu with rfl | hu
      · rfl
      · rcases List.mem_cons.mp hu with rfl | hu
        · rfl
        · simp at hu)

/-- C2: an update whose lane is not a subset of the render lanes is not
applied: the loop iteration leaves the computed state unchanged, clones the
update onto the carried-over base list, fixes the new base state to the
state computed so far exactly when this is the first skipped update, and
merges the update's lane into the remaining lanes, which are recorded on
the work-in-progress fiber. -/
theorem c2_skipped_update (props : JSVal) :
    (∀ (renderLanes : Nat) (ls : LoopState) (u : Update),
      isSubsetOfLanes renderLanes u.lane = false →
        (stepUpdate props renderLanes ls u).newState = ls.newState ∧
        (stepUpdate props renderLanes ls u).newBaseUpdates =
          ls.newBaseUpdates ++ [cloneSkipped u] ∧
        (stepUpdate props renderLanes ls u).newBaseState =
          (if ls.newBaseUpdates.isEmpty then some ls.newState
            else ls.newBaseState) ∧
        (stepUpdate props renderLanes ls u).newLanes =
          mergeLanes ls.newLanes u.lane) ∧
    (∀ (wip : Fiber) (q : UpdateQueue) (renderLanes : Nat)
        (cq : Option UpdateQueue) (d : Bool) (u : Update),
      wip.updateQueue = some q → u ∈ mergedUpdates q →
      isSubsetOfLanes renderLanes u.lane = false →
        isSubsetOfLanes
          ((processUpdateQueue wip props renderLanes cq d).wip.lanes) u.lane
          = true) := by
  constructor
  · intro renderLanes ls u h
    rw [stepUpdate_skip props renderLanes ls u h]
    exact ⟨rfl, rfl, rfl, rfl⟩
  · intro wip q renderLanes cq d u hq hmem hskip
    exact process_lanes_skipped wip q props renderLanes cq d u hq hmem hskip

/-- C2 witness: skipping the lane-2 update under render lanes 1 keeps the
state and records lane 2 on the fiber. -/
theorem c2_skipped_update_witness :
    (stepUpdate JSVal.nullish 1
        (initLoop (initialQueue
          { memoizedState := .nullish, flags := 0, lanes := 0,
            updateQueue := none }) 0)
        (createUpdate 0 2)).newState = .nullish ∧
    isSubsetOfLanes
      ((processUpdateQueue
          { memoizedState := .nullish, flags := 0, lanes := 0,
            updateQueue := some
              { baseState := .nullish, baseUpdates := [],
                pending := some [createUpdate 0 2], interleaved := none,
                lanes := 0, effects := none } }
          .nullish 1 none false).wip.lanes) (createUpdate 0 2).lane
      = true :=
  ⟨((c2_skipped_update JSVal.nullish).1 1
      (initLoop (initialQueue
        { memoizedState := .nullish, flags := 0, lanes := 0,
          updateQueue := none }) 0)
      (createUpdate 0 2) rfl).1.trans rfl,
    (c2_skipped_update JSVal.nullish).2
      { memoizedState := .nullish, flags := 0, lanes := 0,
        updateQueue := some
          { baseState := .nullish, baseUpdates := [],
            pending := some [createUpdate 0 2], interleaved := none,
            lanes := 0, effects := none } }
      _ 1 none false (createUpdate 0 2) rfl (by simp [mergedUpdates]) rfl⟩

/-- C5: `getStateFromUpdate` computes the next state by the update's tag:
`ReplaceState` returns the evaluated payload wholesale; `UpdateState`
shallow-merges a non-nullish partial state (nullish is a no-op) without
touching the flags; `ForceUpdate` sets the force-update flag and keeps the
previous state; `CaptureUpdate` clears `ShouldCapture`, sets `DidCapture`
and otherwise computes the same state as `UpdateState`; and an applied
update with a non-null callback is pushed onto the queue's effects list
(and the `Callback` flag is set on the fiber). -/
theorem c5_getStateFromUpdate_dispatch :
    (∀ (fl : Nat) (u : Update) (s p : JSVal), u.tag = ReplaceState →
      getStateFromUpdate fl u s p =
        { state := evalPayload u.payload s p, flags := fl,
          forceUpdate := false }) ∧
    (∀ (fl : Nat) (u : Update) (s p : JSVal), u.tag = UpdateState →
      getStateFromUpdate fl u s p =
        { state :=
            match evalPayload u.payload s p with
            | .nullish => s
            | .obj partSt => .obj (assignObj (toObj s) partSt)
          flags := fl
          forceUpdate := false }) ∧
    (∀ (fl : Nat) (u : Update) (s p : JSVal), u.tag = ForceUpdate →
      getStateFromUpdate fl u s p =
        { state := s, flags := fl, forceUpdate := true }) ∧
    (∀ (fl : Nat) (u : Update) (s p : JSVal), u.tag = CaptureUpdate →
      (getStateFromUpdate fl u s p).flags =
          ((fl &&& bnot32 ShouldCapture) ||| DidCapture) ∧
        (getStateFromUpdate fl u s p).state =
          (getStateFromUpdate fl { u with tag := UpdateState } s p).state ∧
        (getStateFromUpdate fl u s p).forceUpdate = false) ∧
    (∀ (props : JSVal) (renderLanes : Nat) (ls : LoopState) (u : Update)
        (c : Nat),
      isSubsetOfLanes renderLanes u.lane = true → u.callback = some c →
        (stepUpdate props renderLanes ls u).effects =
          some ((ls.effects.getD []) ++ [u]) ∧
        isSubsetOfLanes ((stepUpdate props renderLanes ls u).flags) Callback
          = true) := by
  refine ⟨?_, ?_, ?_, ?_, ?_⟩
  · intro fl u s p h
    unfold getStateFromUpdate
    rw [h]
    simp
  · intro fl u s p h
    unfold getStateFromUpdate
    rw [h]
    cases hp : evalPayload u.payload s p <;>
      simp [hp, UpdateState, ReplaceState, CaptureUpdate, ForceUpdate]
  · intro fl u s p h
    unfold getStateFromUpdate
    rw [h]
    cases hp : evalPayload u.payload s p <;>
      simp [hp, UpdateState, ReplaceState, CaptureUpdate, ForceUpdate]
  · intro fl u s p h
    unfold getStateFromUpdate
    rw [h]
    refine ⟨?_, ?_, ?_⟩ <;>
      cases hp : evalPayload u.payload s p <;>
        simp [hp, UpdateState, ReplaceState, CaptureUpdate, ForceUpdate]
  · intro props renderLanes ls u c hsub hc
    constructor
    · unfold stepUpdate
      rw [hsub]
      cases hb : ls.newBaseUpdates.isEmpty <;> simp [hb, hc]
    · unfold stepUpdate
      rw [hsub]
      cases hb : ls.newBaseUpdates.isEmpty <;>
        (simp [hb, hc]; exact isSubsetOfLanes_merge_self _ _)

/-- C5 witness: a concrete replace, a concrete force update, and a concrete
callback-carrying applied update. -/
theorem c5_getStateFromUpdate_dispatch_witness :
    getStateFromUpdate 0
        { eventTime := 0, lane := 1, tag := ReplaceState,
          payload := .val (.obj [("a", 1)]), callback := none }
        (.obj [("b", 2)]) .nullish =
      { state := .obj [("a", 1)], flags := 0, forceUpdate := false } ∧
    getStateFromUpdate 5
        { eventTime := 0, lane := 1, tag := ForceUpdate,
          payload := .val .nullish, callback := none }
        (.obj []) .nullish =
      { state := .obj [], flags := 5, forceUpdate := true } ∧
    (stepUpdate .nullish 1
        (initLoop (initialQueue
          { memoizedState := .nullish, flags := 0, lanes := 0,
            updateQueue := none }) 0)
        { eventTime := 0, lane := 1, tag := UpdateState,
          payload := .val .nullish, callback := some 7 }).effects =
      some [{ eventTime := 0, lane := 1, tag := UpdateState,
              payload := .val .nullish, callback := some 7 }] :=
  ⟨c5_getStateFromUpdate_dispatch.1 0
      { eventTime := 0, lane := 1, tag := ReplaceState,
        payload := .val (.obj [("a", 1)]), callback := none }
      (.obj [("b", 2)]) .nullish rfl,
    c5_getStateFromUpdate_dispatch.2.2.1 5
      { eventTime := 0, lane := 1, tag := ForceUpdate,
        payload := .val .nullish, callback := none } (.obj []) .nullish rfl,
    ((c5_getStateFromUpdate_dispatch.2.2.2.2 .nullish 1
      (initLoop (initialQueue
        { memoizedState := .nullish, flags := 0, lanes := 0,
          updateQueue := none }) 0)
      { eventTime := 0, lane := 1, tag := UpdateState,
        payload := .val .nullish, callback := some 7 } 7 rfl rfl).1).trans rfl⟩

theorem dropWhile_eq_nil_of_all {α : Type} (q : α → Bool) (l : List α)
    (h : ∀ a ∈ l, q a = true) : l.dropWhile q = [] := by
  induction l with
  | nil => rfl
  | cons a t ih =>
    rw [List.dropWhile_cons, if_pos (h a (by simp))]
    exact ih (fun b hb => h b (by simp [hb]))

/-- C4: if no update in the merged list is skipped, the queue's base state
afterwards equals the final memoized state and the carried-over base list
is empty; if some update is skipped (the merged list's longest applicable
head stops at `k`), the base state afterwards is the state as of the first
skip and the carried-over list starts at that update, followed by every
later update (applied ones as `NoLane` clones). -/
theorem c4_base_state_collapse (props : JSVal) :
    (∀ (wip : Fiber) (q : UpdateQueue) (renderLanes : Nat)
        (cq : Option UpdateQueue) (d : Bool),
      wip.updateQueue = some q → mergedUpdates q ≠ [] →
      (∀ u ∈ mergedUpdates q, isSubsetOfLanes renderLanes u.lane = true) →
        Option.map UpdateQueue.baseState
            ((processUpdateQueue wip props renderLanes cq d).wip.updateQueue)
          = some ((processUpdateQueue wip props renderLanes cq d).wip.memoizedState) ∧
        Option.map UpdateQueue.baseUpdates
            ((processUpdateQueue wip props renderLanes cq d).wip.updateQueue)
          = some []) ∧
    (∀ (wip : Fiber) (q : UpdateQueue) (renderLanes : Nat)
        (cq : Option UpdateQueue) (d : Bool) (k : Update) (bs : List Update),
      wip.updateQueue = some q →
      (mergedUpdates q).dropWhile
          (fun u => isSubsetOfLanes renderLanes u.lane) = k :: bs →
        Option.map UpdateQueue.baseState
            ((processUpdateQueue wip props renderLanes cq d).wip.updateQueue)
          = some (((mergedUpdates q).takeWhile
              (fun u => isSubsetOfLanes renderLanes u.lane)).foldl
                (applyU props) q.baseState) ∧
        Option.map UpdateQueue.baseUpdates
            ((processUpdateQueue wip props renderLanes cq d).wip.updateQueue)
          = some (k :: bs.map (markReplayed renderLanes))) := by
  constructor
  · intro wip q renderLanes cq d hq hne hall
    have hdw := dropWhile_eq_nil_of_all
      (fun u => isSubsetOfLanes renderLanes u.lane) (mergedUpdates q) hall
    constructor
    · rw [process_baseState wip q props renderLanes cq d hq hne,
        process_memoizedState wip q props renderLanes cq d hq hne]
      simp [hdw]
    · rw [process_baseUpdates wip q props renderLanes cq d hq hne,
        carriedOf_eq_nil renderLanes _ hall]
  · intro wip q renderLanes cq d k bs hq hdw
    have hne : mergedUpdates q ≠ [] := by
      intro h
      rw [h] at hdw
      simp at hdw
    constructor
    · rw [process_baseState wip q props renderLanes cq d hq hne]
      simp [hdw]
    · rw [process_baseUpdates wip q props renderLanes cq d hq hne,
        carriedOf_dropWhile, hdw]
      rfl

/-- C4 witness: a fully-applied pass collapses the queue; a pass whose first
update is skipped fixes the base state at the start and keeps both updates. -/
theorem c4_base_state_collapse_witness :
    (Option.map UpdateQueue.baseUpdates
        ((processUpdateQueue
          { memoizedState := .nullish, flags := 0, lanes := 0,
            updateQueue := some
              { baseState := .nullish, baseUpdates := [],
                pending := some [createUpdate 0 1], interleaved := none,
                lanes := 0, effects := none } }
          .nullish 1 none false).wip.updateQueue) = some []) ∧
    (Option.map UpdateQueue.baseUpdates
        ((processUpdateQueue
          { memoizedState := .nullish, flags := 0, lanes := 0,
            updateQueue := some
              { baseState := .nullish, baseUpdates := [],
                pending := some [createUpdate 0 2, createUpdate 0 1],
                interleaved := none, lanes := 0, effects := none } }
          .nullish 1 none false).wip.updateQueue) =
      some (createUpdate 0 2 ::
        [createUpdate 0 1].map (markReplayed 1))) :=
  ⟨((c4_base_state_collapse JSVal.nullish).1
      { memoizedState := .nullish, flags := 0, lanes := 0,
        updateQueue := some
          { baseState := .nullish, baseUpdates := [],
            pending := some [createUpdate 0 1], interleaved := none,
            lanes := 0, effects := none } }
      _ 1 none false rfl (by simp [mergedUpdates])
      (by
        intro u hu
        simp [mergedUpdates] at hu
        rw [hu]
        rfl)).2,
    ((c4_base_state_collapse JSVal.nullish).2
      { memoizedState := .nullish, flags := 0, lanes := 0,
        updateQueue := some
          { baseState := .nullish, baseUpdates := [],
            pending := some [createUpdate 0 2, createUpdate 0 1],
            interleaved := none, lanes := 0, effects := none } }
      _ 1 none false (createUpdate 0 2) [createUpdate 0 1] rfl
      (by
        rw [show mergedUpdates
            { baseState := .nullish, baseUpdates := [],
              pending := some [createUpdate 0 2, createUpdate 0 1],
              interleaved := none, lanes := 0, effects := none }
          = [createUpdate 0 2, createUpdate 0 1] from rfl]
        rfl)).2⟩

/-- C6: updates are kept and applied strictly in enqueue order:
`enqueueUpdate` appends at the tail of the pending (or interleaved) list;
`processUpdateQueue` walks the base list followed by the pending list front
to back, so the state it computes is the in-order fold of exactly the
lane-applicable updates, and the carried-over list is the in-order suffix
of the merged list from the first skip (lanes only decide applied versus
skipped, never position). -/
theorem c6_insertion_order (props : JSVal) :
    (∀ (fiber : Fiber) (q : UpdateQueue) (u : Update) (lane : Nat),
      fiber.updateQueue = some q →
      enqueueUpdate fiber u lane false =
        { fiber with updateQueue := some { q with
            pending := some (q.pending.getD [] ++ [u]) } }) ∧
    (∀ (fiber : Fiber) (q : UpdateQueue) (u : Update) (lane : Nat),
      fiber.updateQueue = some q →
      enqueueUpdate fiber u lane true =
        { fiber with updateQueue := some { q with
            interleaved := some (q.interleaved.getD [] ++ [u]) } }) ∧
    (∀ (wip : Fiber) (q : UpdateQueue) (renderLanes : Nat)
        (cq : Option UpdateQueue) (d : Bool),
      wip.updateQueue = some q → mergedUpdates q ≠ [] →
      (processUpdateQueue wip props renderLanes cq d).wip.memoizedState =
        ((q.baseUpdates ++ q.pending.getD []).filter
          (fun u => isSubsetOfLanes renderLanes u.lane)).foldl
            (applyU props) q.baseState ∧
      Option.map UpdateQueue.baseUpdates
          ((processUpdateQueue wip props renderLanes cq d).wip.updateQueue) =
        some (carriedOf renderLanes (q.baseUpdates ++ q.pending.getD []))) := by
  refine ⟨?_, ?_, ?_⟩
  · intro fiber q u lane hq
    exact enqueueUpdate_pending fiber q u lane hq
  · intro fiber q u lane hq
    exact enqueueUpdate_interleaved fiber q u lane hq
  · intro wip q renderLanes cq d hq hne
    exact ⟨process_memoizedState wip q props renderLanes cq d hq hne,
      process_baseUpdates wip q props renderLanes cq d hq hne⟩

/-- C6 witness: a concrete enqueue appends at the tail, and a concrete pass
applies the applicable updates in order. -/
theorem c6_insertion_order_witness :
    enqueueUpdate
        { memoizedState := .nullish, flags := 0, lanes := 0,
          updateQueue := some
            { baseState := .nullish, baseUpdates := [],
              pending := some [createUpdate 0 1], interleaved := none,
              lanes := 0, effects := none } }
        (createUpdate 1 1) 1 false =
      { memoizedState := .nullish, flags := 0, lanes := 0,
        updateQueue := some
          { baseState := .nullish, baseUpdates := [],
            pending := some [createUpdate 0 1, createUpdate 1 1],
            interleaved := none, lanes := 0, effects := none } } ∧
    (processUpdateQueue
        { memoizedState := .nullish, flags := 0, lanes := 0,
          updateQueue := some
            { baseState := .nullish, baseUpdates := [],
              pending := some [createUpdate 0 1], interleaved := none,
              lanes := 0, effects := none } }
        .nullish 1 none false).wip.memoizedState =
      ([createUpdate 0 1].filter
        (fun u => isSubsetOfLanes 1 u.lane)).foldl (applyU .nullish) .nullish :=
  ⟨((c6_insertion_order JSVal.nullish).1
      { memoizedState := .nullish, flags := 0, lanes := 0,
        updateQueue := some
          { baseState := .nullish, baseUpdates := [],
            pending := some [createUpdate 0 1], interleaved := none,
            lanes := 0, effects := none } }
      _ (createUpdate 1 1) 1 rfl).trans rfl,
    ((c6_insertion_order JSVal.nullish).2.2
      { memoizedState := .nullish, flags := 0, lanes := 0,
        updateQueue := some
          { baseState := .nullish, baseUpdates := [],
            pending := some [createUpdate 0 1], interleaved := none,
            lanes := 0, effects := none } }
      _ 1 none false rfl (by simp [mergedUpdates])).1.trans rfl⟩

/-- C3: with U1 then U2 enqueued in that order, and render lanes containing
U2's lane but not U1's, the first pass applies U2 and not U1 (the computed
state is exactly one application of U2 to the base state), both updates
remain on the carried-over base list in original order (U2 as a `NoLane`
clone), and a second pass at a lane set including U1's lane applies U1 and
then replays U2 in that order. -/
theorem c3_priority_replay (s0 props : JSVal) (fl ln : Nat)
    (u1 u2 : Update) (r1 r2 : Nat) (f0 f1 f2 : Fiber)
    (hf0 : f0 = enqueueAll (attachInitialQueue
      { memoizedState := s0, flags := fl, lanes := ln, updateQueue := none })
      [u1, u2])
    (hf1 : f1 = (processUpdateQueue f0 props r1 none false).wip)
    (hf2 : f2 = (processUpdateQueue f1 props r2 none false).wip)
    (h1 : isSubsetOfLanes r1 u1.lane = false)
    (h2 : isSubsetOfLanes r1 u2.lane = true)
    (h3 : isSubsetOfLanes r2 u1.lane = true) :
    f1.memoizedState = applyU props s0 u2 ∧
    Option.map UpdateQueue.baseUpdates f1.updateQueue =
      some [u1, cloneReplayed u2] ∧
    f2.memoizedState = applyU props (applyU props s0 u1) u2 := by
  subst hf2
  subst hf1
  subst hf0
  have hq0 : (enqueueAll (attachInitialQueue
      { memoizedState := s0, flags := fl, lanes := ln, updateQueue := none })
      [u1, u2]).updateQueue =
      some { baseState := s0, baseUpdates := [], pending := some [u1, u2],
             interleaved := none, lanes := NoLanes, effects := none } := rfl
  have hmq0 : mergedUpdates
      { baseState := s0, baseUpdates := [], pending := some [u1, u2],
        interleaved := none, lanes := NoLanes, effects := none }
      = [u1, u2] := rfl
  have hne0 : mergedUpdates
      { baseState := s0, baseUpdates := [], pending := some [u1, u2],
        interleaved := none, lanes := NoLanes, effects := none } ≠ [] := by
    rw [hmq0]
    simp
  have hmem1 : (processUpdateQueue (enqueueAll (attachInitialQueue
      { memoizedState := s0, flags := fl, lanes := ln, updateQueue := none })
      [u1, u2]) props r1 none false).wip.memoizedState =
      applyU props s0 u2 := by
    rw [process_memoizedState _ _ props r1 none false hq0 hne0, hmq0]
    simp [List.filter_cons, h1, h2]
  have hbase1 : Option.map UpdateQueue.baseUpdates
      ((processUpdateQueue (enqueueAll (attachInitialQueue
        { memoizedState := s0, flags := fl, lanes := ln, updateQueue := none })
        [u1, u2]) props r1 none false).wip.updateQueue) =
      some [u1, cloneReplayed u2] := by
    rw [process_baseUpdates _ _ props r1 none false hq0 hne0, hmq0]
    simp [carriedOf, markReplayed, h1, h2, cloneSkipped_eq]
  have hbst1 := process_baseState _ _ props r1 none false hq0 hne0
  have hrest1 := process_queue_rest _ _ props r1 none false hq0 hne0
  rw [hmq0] at hbst1
  refine ⟨hmem1, hbase1, ?_⟩
  cases hq1 : (processUpdateQueue (enqueueAll (attachInitialQueue
      { memoizedState := s0, flags := fl, lanes := ln, updateQueue := none })
      [u1, u2]) props r1 none false).wip.updateQueue with
  | none =>
    rw [hq1] at hbase1
    simp at hbase1
  | some q1 =>
    rw [hq1] at hbase1 hbst1
    obtain ⟨hp1, hi1, hl1⟩ := hrest1
    rw [hq1] at hp1
    have hb1 : q1.baseUpdates = [u1, cloneReplayed u2] :=
      Option.some.inj hbase1
    have hp1' : q1.pending = none := Option.some.inj hp1
    have hbs1 : q1.baseState = s0 := by
      have hx := Option.some.inj hbst1
      rw [hx]
      simp [List.dropWhile_cons, List.takeWhile_cons, h1]
    have hm1 : mergedUpdates q1 = [u1, cloneReplayed u2] := by
      simp [mergedUpdates, hb1, hp1']
    have hne1 : mergedUpdates q1 ≠ [] := by
      rw [hm1]
      simp
    have hz : isSubsetOfLanes r2 (cloneReplayed u2).lane = true := by
      simpa [cloneReplayed, NoLane] using isSubsetOfLanes_zero r2
    rw [process_memoizedState _ q1 props r2 none false hq1 hne1, hm1]
    simp [List.filter_cons, h3, hz, hbs1, applyU_cloneReplayed]

/-- C3 witness: U1 at lane 2, U2 at lane 1, first pass at render lanes 1,
second pass at render lanes 2. -/
theorem c3_priority_replay_witness :
    ((processUpdateQueue (enqueueAll (attachInitialQueue
        { memoizedState := .nullish, flags := 0, lanes := 0,
          updateQueue := none })
        [createUpdate 0 2, createUpdate 0 1])
      JSVal.nullish 1 none false).wip).memoizedState =
        applyU .nullish .nullish (createUpdate 0 1) ∧
    Option.map UpdateQueue.baseUpdates
      (((processUpdateQueue (enqueueAll (attachInitialQueue
          { memoizedState := .nullish, flags := 0, lanes := 0,
            updateQueue := none })
          [createUpdate 0 2, createUpdate 0 1])
        JSVal.nullish 1 none false).wip).updateQueue) =
      some [createUpdate 0 2, cloneReplayed (createUpdate 0 1)] ∧
    ((processUpdateQueue
        ((processUpdateQueue (enqueueAll (attachInitialQueue
            { memoizedState := .nullish, flags := 0, lanes := 0,
              updateQueue := none })
            [createUpdate 0 2, createUpdate 0 1])
          JSVal.nullish 1 none false).wip)
        JSVal.nullish 2 none false).wip).memoizedState =
      applyU .nullish (applyU .nullish .nullish (createUpdate 0 2))
        (createUpdate 0 1) :=
  c3_priority_replay .nullish .nullish 0 0 (createUpdate 0 2)
    (createUpdate 0 1) 1 2 _ _ _ rfl rfl rfl rfl rfl rfl

/-- C7: for every fiber whose `updateQueue` is `null` (unmounted), calling
`enqueueUpdate` on it returns without error and without modifying the fiber
or the update: a silent no-op, never a thrown failure. -/
theorem c7_enqueue_unmounted_noop (fiber : Fiber) (update : Update)
    (lane : Nat) (interleavedPath : Bool) (h : fiber.updateQueue = none) :
    enqueueUpdate fiber update lane interleavedPath = fiber := by
  unfold enqueueUpdate
  rw [h]

/-- C7 witness: the no-op on a concrete unmounted fiber. -/
theorem c7_enqueue_unmounted_noop_witness :
    enqueueUpdate
      { memoizedState := .nullish, flags := 0, lanes := 0, updateQueue := none }
      (createUpdate 0 1) 1 false =
      { memoizedState := .nullish, flags := 0, lanes := 0, updateQueue := none } :=
  c7_enqueue_unmounted_noop _ _ _ _ rfl

/-- C8: on a node with base state `{count: 0}`, enqueueing the update with
payload `{count: 1}` and then the update with payload
`prevState => ({count: prevState.count + 1})`, both at lane 1, and processing
at render lanes including that lane, yields memoized state `{count: 2}`. -/
theorem c8_counter_scenario (props : JSVal) :
    ((processUpdateQueue
        (enqueueAll
          (attachInitialQueue
            { memoizedState := .obj [("count", 0)], flags := 0, lanes := 0,
              updateQueue := none })
          [ { eventTime := 0, lane := 1, tag := UpdateState,
              payload := .val (.obj [("count", 1)]), callback := none },
            { eventTime := 0, lane := 1, tag := UpdateState,
              payload := .fn (fun prevState _ =>
                .obj [("count", (lookupKey (toObj prevState) ("count")).getD 0 + 1)]),
              callback := none } ])
        props 1 none false).wip).memoizedState = .obj [("count", 2)] := rfl

/-- C9: whenever `processUpdateQueue` splices a pending list onto the
work-in-progress base queue and the alternate exists with a distinct queue
object whose `lastBaseUpdate` differs, the same spliced update list is also
appended to the alternate's base queue, so no pending update is lost if the
work-in-progress pass is discarded. -/
theorem c9_pending_spliced_to_alternate (wip : Fiber) (q : UpdateQueue)
    (p : List Update) (cq : UpdateQueue) (props : JSVal) (renderLanes : Nat)
    (hq : wip.updateQueue = some q) (hp : q.pending = some p) :
    (processUpdateQueue wip props renderLanes (some cq) true).currentQueue =
      some { cq with baseUpdates := cq.baseUpdates ++ p } := by
  have hdisp : processUpdateQueue wip props renderLanes (some cq) true =
      processWithQueue wip q props renderLanes (some cq) true := by
    unfold processUpdateQueue
    rw [hq]
  rw [hdisp]
  unfold processWithQueue
  cases hemp : (mergedUpdates q).isEmpty <;> simp [hemp, spliceToCurrent, hp]

/-- C9 witness: a concrete splice onto a concrete alternate queue. -/
theorem c9_pending_spliced_to_alternate_witness :
    (processUpdateQueue
        { memoizedState := .nullish, flags := 0, lanes := 0,
          updateQueue := some
            { baseState := .nullish, baseUpdates := [],
              pending := some [createUpdate 0 1], interleaved := none,
              lanes := 0, effects := none } }
        .nullish 1
        (some { baseState := .nullish, baseUpdates := [], pending := none,
                interleaved := none, lanes := 0, effects := none })
        true).currentQueue =
      some { baseState := .nullish, baseUpdates := [createUpdate 0 1],
             pending := none, interleaved := none, lanes := 0,
             effects := none } :=
  c9_pending_spliced_to_alternate _ _ _ _ _ _ rfl rfl

/-- C10: an applied `UpdateState` update whose payload is nullish (or whose
updater function returns nullish) leaves the previous state unchanged: a
no-op rather than a merge or an error. -/
theorem c10_nullish_update_noop (flags : Nat) (update : Update)
    (prevState props : JSVal) (htag : update.tag = UpdateState)
    (hnull : evalPayload update.payload prevState props = .nullish) :
    getStateFromUpdate flags update prevState props =
      { state := prevState, flags := flags, forceUpdate := false } := by
  simp [getStateFromUpdate, htag, hnull, UpdateState, ReplaceState,
    CaptureUpdate, ForceUpdate]

/-- C10 witness: `createUpdate` has tag `UpdateState` and payload `null`;
applying it is a no-op. -/
theorem c10_nullish_update_noop_witness :
    getStateFromUpdate 7 (createUpdate 3 1) (.obj [("count", 5)]) .nullish =
      { state := .obj [("count", 5)], flags := 7, forceUpdate := false } :=
  c10_nullish_update_noop 7 (createUpdate 3 1) _ _ rfl rfl

end ReactModel
